import Mathlib

set_option linter.unusedVariables false

/-!
Shallow embedding of src/filters.py (flask-filter): type-aware filter and
ordering predicates compiled from string query parameters.

The queryable itself (peewee) is an external collaborator; its capability
surface is modelled from the spec (section 6): selected fields, cumulative
conjunctive predicates, and a sort-key operation that layers on prior calls
by prepending.  Everything else is translated from src/filters.py.
-/

/-- The semantic type tag of a peewee column, as matched by the isinstance
checks in DefaultFilter.FIELD_MAP.  Peewee subclass relations are flattened
into tags, since only these four classes are tested. -/
inductive PeeweeFieldType
  | charField
  | integerField
  | booleanField
  | dateTimeField
  | other
  deriving DecidableEq, Repr

/-- One selected column of the queryable.  model_pk_name models
field.model._meta.primary_key.name, the primary-key name of the owning
model. -/
structure FieldPy where
  name : String
  ftype : PeeweeFieldType
  model_pk_name : String
  deriving DecidableEq, Repr

/-- A parsed Python datetime value (what datetime.strptime returns for the
one configured format, which has no timezone and no fraction). -/
structure PyDateTime where
  year : Nat
  month : Nat
  day : Nat
  hour : Nat
  minute : Nat
  second : Nat
  deriving DecidableEq, Repr

/-- A coerced parameter value: raw string, coerced boolean, or a parsed
datetime. -/
inductive Value
  | str (s : String)
  | bool (b : Bool)
  | dt (d : PyDateTime)
  deriving DecidableEq, Repr

/-- The comparison functions of DefaultFilter.MAP.  mod and pow mirror
pyoperator.mod and pyoperator.pow, which peewee overloads as LIKE and
ILIKE expressions. -/
inductive CmpOp
  | eq
  | ne
  | ge
  | le
  | gt
  | lt
  | mod
  | pow
  deriving DecidableEq, Repr

/-- A predicate expression handed to the queryable: a comparison built from
DefaultFilter.MAP, or the is_null null-check method expression. -/
inductive PredExpr
  | cmp (op : CmpOp) (field : FieldPy) (v : Value)
  | is_null (field : FieldPy) (b : Bool)
  deriving DecidableEq, Repr

/-- Modelled from the spec: the external queryable collaborator (section 6).
selected_columns are its selected fields; predicates accumulate
conjunctively; sort_keys is the ordering, highest precedence first. -/
structure Query where
  selected_columns : List FieldPy
  predicates : List PredExpr
  sort_keys : List (FieldPy × Bool)
  deriving DecidableEq, Repr

/-- Modelled from the spec: Queryable.where adds one predicate cumulatively
and conjunctively. -/
def Query.addWhere (q : Query) (p : PredExpr) : Query :=
  { q with predicates := q.predicates ++ [p] }

/-- Modelled from the spec: the add-a-sort-key operation prepends in effect
when each call layers on top of prior calls (section 4.4), so the head of
sort_keys is the primary sort key.  The Bool is the descending flag. -/
def Query.order_by (q : Query) (sk : FieldPy × Bool) : Query :=
  { q with sort_keys := sk :: q.sort_keys }

/-- The errors a filter run can raise: the explicit raise in
BaseFilter.get_field_py, the KeyError of a failed dict lookup in
DefaultFilter.MAP, and passing a missing (Python None) default ordering
field to the external order_by, which is outside the modelled capability
surface. -/
inductive Err
  | fieldNotFound
  | keyError
  | noneOrderingField
  deriving DecidableEq, Repr

/-! ## Python string helpers, over the character list of a String -/

/-- Python str.split with a one-character separator: "".split(",") is
[""], and separators produce empty pieces. -/
def splitCharList (sep : Char) : List Char → List (List Char)
  | [] => [[]]
  | c :: rest =>
    let r := splitCharList sep rest
    if c == sep then [] :: r
    else
      match r with
      | [] => [[c]]
      | h :: t => (c :: h) :: t

/-- Python s.split(",") on a Lean String. -/
def pySplitComma (s : String) : List String :=
  (splitCharList ',' s.data).map (fun l => ⟨l⟩)

/-- The whitespace characters Python str.strip removes (ASCII part). -/
def pyIsSpace (c : Char) : Bool :=
  c == ' ' || c == '\t' || c == '\n' || c == '\r' || c == '\x0b' || c == '\x0c'

/-- Python str.strip(): drop leading and trailing whitespace. -/
def pyStrip (s : String) : String :=
  ⟨((s.data.dropWhile pyIsSpace).reverse.dropWhile pyIsSpace).reverse⟩

/-- Python s.startswith("-"). -/
def startsWithDash (s : String) : Bool :=
  match s.data with
  | [] => false
  | c :: _ => c == '-'

/-- Python s[1:]: drop the first character. -/
def strip_dash (s : String) : String :=
  ⟨s.data.drop 1⟩

/-! ## Field type adapters (FilterBaseField and subclasses) -/

/-- FilterBaseField.parse_value: identity on the raw string. -/
def FilterBaseField.parse_value (value : String) : String :=
  value

/-- FilterBaseField.is_support_operator: every operator is supported. -/
def FilterBaseField.is_support_operator (operator : String) : Bool :=
  true

/-- FilterCharField inherits parse_value and is_support_operator from
FilterBaseField. -/
def FilterCharField.is_support_operator (operator : String) : Bool :=
  FilterBaseField.is_support_operator operator

/-- FilterBooleanField.parse_value: the raw string compared to "true". -/
def FilterBooleanField.parse_value (value : String) : Bool :=
  FilterBaseField.parse_value value == "true"

/-- FilterBooleanField.is_support_operator: operator not in
[">=", "<=", ">", "<", "LIKE", "ILIKE"]. -/
def FilterBooleanField.is_support_operator (operator : String) : Bool :=
  !([">=", "<=", ">", "<", "LIKE", "ILIKE"].contains operator)

/-- FilterIntegerField.is_support_operator: operator not in
["LIKE", "ILIKE"]. -/
def FilterIntegerField.is_support_operator (operator : String) : Bool :=
  !(["LIKE", "ILIKE"].contains operator)

/-- FilterDateTimeField.is_support_operator: operator not in
["LIKE", "ILIKE"]. -/
def FilterDateTimeField.is_support_operator (operator : String) : Bool :=
  !(["LIKE", "ILIKE"].contains operator)

/-- FilterDefaultField inherits is_support_operator from FilterBaseField. -/
def FilterDefaultField.is_support_operator (operator : String) : Bool :=
  FilterBaseField.is_support_operator operator

/-! ## datetime.strptime for the one configured format "%Y-%m-%dT%H:%M:%S"

Python strptime compiles the format to a regular expression (with
IGNORECASE, so the literal T also matches t), requires the whole string to
be consumed, and then builds a datetime, which validates the calendar day
and rejects leap seconds.  The component regexes below are the ones
CPython's _strptime module uses for %Y %m %d %H %M %S. -/

/-- The numeric value of a digit character. -/
def digitVal (c : Char) : Nat :=
  c.toNat - 48

/-- Character equality test, as a Bool-valued class. -/
def isC (x c : Char) : Bool :=
  c == x

/-- Character range test. -/
def inRange (lo hi c : Char) : Bool :=
  decide (lo ≤ c) && decide (c ≤ hi)

/-- A two-digit regex alternative: one character class for each digit. -/
def altTwo (firstOk secondOk : Char → Bool) : List Char → Option (Nat × List Char)
  | a :: b :: rest =>
    if firstOk a && secondOk b then some (digitVal a * 10 + digitVal b, rest)
    else none
  | _ => none

/-- A one-digit regex alternative. -/
def altOne (ok : Char → Bool) : List Char → Option (Nat × List Char)
  | a :: rest => if ok a then some (digitVal a, rest) else none
  | [] => none

/-- The %Y alternative: exactly four digits. -/
def fourDigits : List Char → Option (Nat × List Char)
  | a :: b :: c :: d :: rest =>
    if a.isDigit && b.isDigit && c.isDigit && d.isDigit then
      some (((digitVal a * 10 + digitVal b) * 10 + digitVal c) * 10 + digitVal d, rest)
    else none
  | _ => none

/-- Regex alternation with backtracking: try each alternative in order and
continue with k; on failure of the continuation, fall through to the next
alternative. -/
def tryAlts (alts : List (List Char → Option (Nat × List Char))) (cs : List Char)
    (k : Nat → List Char → Option PyDateTime) : Option PyDateTime :=
  match alts with
  | [] => none
  | a :: rest =>
    match a cs with
    | some (n, r) =>
      match k n r with
      | some v => some v
      | none => tryAlts rest cs k
    | none => tryAlts rest cs k

/-- A literal character of the format. -/
def expectChar (x : Char) (cs : List Char) : Option (List Char) :=
  match cs with
  | c :: rest => if c == x then some rest else none
  | [] => none

/-- The literal T of the format; strptime compiles its regex with
IGNORECASE, so t is accepted as well. -/
def expectT (cs : List Char) : Option (List Char) :=
  match cs with
  | c :: rest => if c == 'T' || c == 't' then some rest else none
  | [] => none

/-- CPython regex for %m: 1[0-2] or 0[1-9] or [1-9]. -/
def monthAlts : List (List Char → Option (Nat × List Char)) :=
  [altTwo (isC '1') (inRange '0' '2'), altTwo (isC '0') (inRange '1' '9'),
   altOne (inRange '1' '9')]

/-- CPython regex for %d: 3[01] or [12][0-9] or 0[1-9] or [1-9]. -/
def dayAlts : List (List Char → Option (Nat × List Char)) :=
  [altTwo (isC '3') (inRange '0' '1'), altTwo (inRange '1' '2') Char.isDigit,
   altTwo (isC '0') (inRange '1' '9'), altOne (inRange '1' '9')]

/-- CPython regex for %H: 2[0-3] or [0-1][0-9] or [0-9]. -/
def hourAlts : List (List Char → Option (Nat × List Char)) :=
  [altTwo (isC '2') (inRange '0' '3'), altTwo (inRange '0' '1') Char.isDigit,
   altOne Char.isDigit]

/-- CPython regex for %M: [0-5][0-9] or [0-9]. -/
def minuteAlts : List (List Char → Option (Nat × List Char)) :=
  [altTwo (inRange '0' '5') Char.isDigit, altOne Char.isDigit]

/-- CPython regex for %S: 6[0-1] or [0-5][0-9] or [0-9]. -/
def secondAlts : List (List Char → Option (Nat × List Char)) :=
  [altTwo (isC '6') (inRange '0' '1'), altTwo (inRange '0' '5') Char.isDigit,
   altOne Char.isDigit]

/-- The Gregorian leap-year rule used by Python's calendar. -/
def isLeapYear (y : Nat) : Bool :=
  (y % 4 == 0 && y % 100 != 0) || y % 400 == 0

/-- Days in a month, as validated by the datetime constructor. -/
def daysInMonth (y m : Nat) : Nat :=
  if m == 2 then (if isLeapYear y then 29 else 28)
  else if m == 4 || m == 6 || m == 9 || m == 11 then 30
  else 31

/-- The datetime constructor validation: MINYEAR..MAXYEAR, a real calendar
day, and second at most 59 (the %S regex admits leap seconds 60 and 61 but
the constructor rejects them, and strptime raises ValueError). -/
def mkDatetime (y m d h mi s : Nat) : Option PyDateTime :=
  if 1 ≤ y ∧ y ≤ 9999 ∧ 1 ≤ m ∧ m ≤ 12 ∧ 1 ≤ d ∧ d ≤ daysInMonth y m
      ∧ h ≤ 23 ∧ mi ≤ 59 ∧ s ≤ 59 then
    some ⟨y, m, d, h, mi, s⟩
  else none

/-- datetime.strptime(value, "%Y-%m-%dT%H:%M:%S"), returning none where
Python raises ValueError (regex mismatch, trailing unconverted data, or an
invalid calendar value). -/
def strptimeIso (cs : List Char) : Option PyDateTime :=
  tryAlts [fourDigits] cs (fun y r1 =>
    match expectChar '-' r1 with
    | none => none
    | some r2 =>
      tryAlts monthAlts r2 (fun m r3 =>
        match expectChar '-' r3 with
        | none => none
        | some r4 =>
          tryAlts dayAlts r4 (fun d r5 =>
            match expectT r5 with
            | none => none
            | some r6 =>
              tryAlts hourAlts r6 (fun h r7 =>
                match expectChar ':' r7 with
                | none => none
                | some r8 =>
                  tryAlts minuteAlts r8 (fun mi r9 =>
                    match expectChar ':' r9 with
                    | none => none
                    | some r10 =>
                      tryAlts secondAlts r10 (fun s r11 =>
                        if r11.isEmpty then mkDatetime y m d h mi s
                        else none))))))

/-- The format strings of FilterDateTimeField.FORMATS, as tags. -/
inductive TimeFormat
  | isoBasic
  deriving DecidableEq, Repr

/-- FilterDateTimeField.FORMATS: the ordered list of known formats,
initially only "%Y-%m-%dT%H:%M:%S". -/
def FilterDateTimeField.FORMATS : List TimeFormat :=
  [TimeFormat.isoBasic]

/-- datetime.strptime for one of the configured formats, with ValueError
rendered as none. -/
def strptime : TimeFormat → String → Option PyDateTime
  | TimeFormat.isoBasic, s => strptimeIso s.data

/-- The format loop of FilterDateTimeField.parse_value: return the first
successful parse, trying the formats in list order. -/
def tryFormatList : List TimeFormat → String → Option PyDateTime
  | [], _ => none
  | f :: rest, v =>
    match strptime f v with
    | some d => some d
    | none => tryFormatList rest v

/-- FilterDateTimeField.parse_value: the first format that parses wins;
when every format raises ValueError the raw string is returned unchanged. -/
def FilterDateTimeField.parse_value (value : String) : Value :=
  match tryFormatList FilterDateTimeField.FORMATS (FilterBaseField.parse_value value) with
  | some d => Value.dt d
  | none => Value.str value

/-! ## DefaultFilter configuration and key grammar -/

/-- DefaultFilter.MAP: operator token to comparison function, in dict
insertion order. -/
def MAP : List (String × CmpOp) :=
  [("==", CmpOp.eq), ("!=", CmpOp.ne), (">=", CmpOp.ge), ("<=", CmpOp.le),
   (">", CmpOp.gt), ("<", CmpOp.lt), ("LIKE", CmpOp.mod), ("ILIKE", CmpOp.pow)]

/-- DefaultFilter.SUPPORT_METHOD. -/
def SUPPORT_METHOD : List String :=
  ["is_null"]

/-- Every registered operator token: the MAP keys followed by the method
operators, the order in which split_operator builds its alternation. -/
def allOpTokens : List String :=
  MAP.map Prod.fst ++ SUPPORT_METHOD

/-- The alternatives of the operator group in split_operator's pattern.
The source writes the group as (?P<operator>tok1|tok2|...|tokN\)), so the
literal closing parenthesis attaches only to the last alternative and is
captured with it. -/
def opAlternatives : List String :=
  match allOpTokens.reverse with
  | [] => []
  | last :: rest => rest.reverse ++ [last ++ ")"]

/-- The first alternative of the operator group that matches at this
position; the captured text is the alternative itself (none of the tokens
contains a regex metacharacter). -/
def opMatchAt (cs : List Char) : Option String :=
  opAlternatives.find? (fun alt => alt.data.isPrefixOf cs)

/-- One attempt of re.search at a fixed start position: the greedy
(?P<key>.*) prefers the rightmost opening parenthesis in the run before
the first newline that is followed by a matching operator alternative.
Returns the captured key characters and operator. -/
def tryAtStart : List Char → Option (List Char × String)
  | [] => none
  | c :: rest =>
    if c == '\n' then none
    else
      match tryAtStart rest with
      | some (k, op) => some (c :: k, op)
      | none =>
        if c == '(' then
          match opMatchAt rest with
          | some op => some ([], op)
          | none => none
        else none

/-- re.search: try start positions left to right, greedily at each one. -/
def reSearch : List Char → Option (List Char × String)
  | [] => none
  | c :: rest =>
    match tryAtStart (c :: rest) with
    | some r => some r
    | none => reSearch rest

/-- The groupdict of a successful split_operator match. -/
structure SplitResult where
  key : String
  operator : String
  deriving DecidableEq, Repr

/-- DefaultFilter.split_operator: re.search of
(?P<key>.*)\((?P<operator>==|!=|>=|<=|>|<|LIKE|ILIKE|is_null\)) against the
parameter key, returning the group dict on a match and None otherwise. -/
def DefaultFilter.split_operator (param_key : String) : Option SplitResult :=
  (reSearch param_key.data).map (fun r => ⟨⟨r.1⟩, r.2⟩)

/-! ## BaseFilter helpers and DefaultFilter.filter -/

/-- The scan of BaseFilter.get_field_py over the selected columns. -/
def findField (l : List FieldPy) (field_name : String) : Option FieldPy :=
  l.find? (fun f => f.name == field_name)

/-- BaseFilter.get_valid_field_name_list. -/
def get_valid_field_name_list (q : Query) : List String :=
  q.selected_columns.map FieldPy.name

/-- BaseFilter.get_field_py; none models the raised
"Field not found" exception. -/
def get_field_py (q : Query) (field_name : String) : Option FieldPy :=
  findField q.selected_columns field_name

/-- The adapter classes of DefaultFilter.FIELD_MAP plus the default. -/
inductive FilterFieldKind
  | char
  | integer
  | boolean
  | dateTime
  | default
  deriving DecidableEq, Repr

/-- DefaultFilter.FIELD_MAP in dict insertion order. -/
def FIELD_MAP : List (PeeweeFieldType × FilterFieldKind) :=
  [(PeeweeFieldType.charField, FilterFieldKind.char),
   (PeeweeFieldType.integerField, FilterFieldKind.integer),
   (PeeweeFieldType.booleanField, FilterFieldKind.boolean),
   (PeeweeFieldType.dateTimeField, FilterFieldKind.dateTime)]

/-- DefaultFilter.get_filter_field: the first FIELD_MAP entry whose class
the column is an instance of, with FilterDefaultField as fallback. -/
def get_filter_field (f : FieldPy) : FilterFieldKind :=
  match FIELD_MAP.find? (fun e => e.1 == f.ftype) with
  | some e => e.2
  | none => FilterFieldKind.default

/-- Adapter dispatch of is_support_operator, following the class
hierarchy of the source. -/
def kind_is_support_operator : FilterFieldKind → String → Bool
  | FilterFieldKind.char, op => FilterCharField.is_support_operator op
  | FilterFieldKind.integer, op => FilterIntegerField.is_support_operator op
  | FilterFieldKind.boolean, op => FilterBooleanField.is_support_operator op
  | FilterFieldKind.dateTime, op => FilterDateTimeField.is_support_operator op
  | FilterFieldKind.default, op => FilterDefaultField.is_support_operator op

/-- Adapter dispatch of parse_value.  Char, integer and default inherit the
identity parse_value of FilterBaseField. -/
def adapter_parse_value : FilterFieldKind → String → Value
  | FilterFieldKind.char, v => Value.str (FilterBaseField.parse_value v)
  | FilterFieldKind.integer, v => Value.str (FilterBaseField.parse_value v)
  | FilterFieldKind.boolean, v => Value.bool (FilterBooleanField.parse_value v)
  | FilterFieldKind.dateTime, v => FilterDateTimeField.parse_value v
  | FilterFieldKind.default, v => Value.str (FilterBaseField.parse_value v)

/-- One iteration of the loop of DefaultFilter.filter for the pair
(param_key, value): parse the key, check the field name, resolve the
column (get_field_py raises if absent), check operator support, then add
either the method predicate or the MAP comparison predicate; MAP lookup of
an unregistered operator raises KeyError. -/
def DefaultFilter.filterStep (q : Query) (param_key value : String) : Except Err Query :=
  match DefaultFilter.split_operator param_key with
  | none => Except.ok q
  | some od =>
    if (get_valid_field_name_list q).contains od.key then
      match get_field_py q od.key with
      | none => Except.error Err.fieldNotFound
      | some field_py =>
        let filter_field := get_filter_field field_py
        if kind_is_support_operator filter_field od.operator then
          if SUPPORT_METHOD.contains od.operator then
            Except.ok (Query.addWhere q (PredExpr.is_null field_py (value == "true")))
          else
            match MAP.find? (fun e => e.1 == od.operator) with
            | some e =>
              Except.ok (Query.addWhere q
                (PredExpr.cmp e.2 field_py (adapter_parse_value filter_field value)))
            | none => Except.error Err.keyError
        else Except.ok q
    else Except.ok q

/-- DefaultFilter.filter over the parameter mapping in iteration order; an
uncaught exception aborts the loop. -/
def DefaultFilter.filter (q : Query) : List (String × String) → Except Err Query
  | [] => Except.ok q
  | (param_key, value) :: rest =>
    match DefaultFilter.filterStep q param_key value with
    | Except.ok q2 => DefaultFilter.filter q2 rest
    | Except.error e => Except.error e

/-! ## OrderingFilter -/

/-- OrderingFilter.get_default_ordering_field: the first selected column
whose name equals the primary-key name of its model; none models the
Python None that falls out when no column matches. -/
def get_default_ordering_field (q : Query) : Option FieldPy :=
  q.selected_columns.find? (fun f => f.model_pk_name == f.name)

/-- The term_valid closure inside OrderingFilter.filter_valid_fields: strip
one leading descending marker, then test membership among the selected
field names. -/
def term_valid (valid_field_name_list : List String) (ordering_param : String) : Bool :=
  if startsWithDash ordering_param then
    valid_field_name_list.contains (strip_dash ordering_param)
  else
    valid_field_name_list.contains ordering_param

/-- OrderingFilter.filter_valid_fields: keep the tokens term_valid
accepts. -/
def filter_valid_fields (q : Query) (ordering_param_list : List String) : List String :=
  ordering_param_list.filter (term_valid (get_valid_field_name_list q))

/-- The sort key one ordering token produces: get_field_py on the token
(with the marker stripped for descending tokens), whose absence is the
raised "Field not found" exception. -/
def orderingOf (q : Query) (field_name : String) : Option (FieldPy × Bool) :=
  if startsWithDash field_name then
    (get_field_py q (strip_dash field_name)).map (fun f => (f, true))
  else
    (get_field_py q field_name).map (fun f => (f, false))

/-- The loop of OrderingFilter.filter: one order_by call per token, in the
order given (the caller passes the reversed token list). -/
def applyOrderings (q : Query) : List String → Except Err Query
  | [] => Except.ok q
  | t :: rest =>
    match orderingOf q t with
    | some sk => applyOrderings (Query.order_by q sk) rest
    | none => Except.error Err.fieldNotFound

/-- OrderingFilter.filter: default ordering for an absent parameter;
otherwise split on commas, strip, keep the valid tokens, and order_by each
surviving token in reverse written order.  An empty parameter string is
falsy in Python, leaving the token list empty. -/
def OrderingFilter.filter (q : Query) (ordering_param : Option String) : Except Err Query :=
  match ordering_param with
  | none =>
    match get_default_ordering_field q with
    | some f => Except.ok (Query.order_by q (f, false))
    | none => Except.error Err.noneOrderingField
  | some s =>
    let field_name_list :=
      if s.data.isEmpty then []
      else filter_valid_fields q ((pySplitComma s).map pyStrip)
    if field_name_list.isEmpty then Except.ok q
    else applyOrderings q field_name_list.reverse

/-! ## Statement helpers -/

/-- Whether a filter run ended in the get_field_py
"Field not found" exception. -/
def isFieldNotFoundErr : Except Err Query → Bool
  | Except.error Err.fieldNotFound => true
  | _ => false

/-- The observable shape of a sort key: field name and descending flag. -/
def sortKeyName (sk : FieldPy × Bool) : String × Bool :=
  (sk.1.name, sk.2)

/-- The sort key an ordering token denotes: descending with the marker
stripped for a token starting with the marker, ascending otherwise. -/
def tokenSortKey (t : String) : String × Bool :=
  if startsWithDash t then (strip_dash t, true) else (t, false)

/-- The skip conditions of one DefaultFilter.filter iteration: the key
fails the grammar, or names no selected column, or carries an operator the
resolved adapter reports unsupported. -/
def pairSkipped (sel : List FieldPy) (param_key : String) : Bool :=
  match DefaultFilter.split_operator param_key with
  | none => true
  | some od =>
    match findField sel od.key with
    | none => true
    | some f => !(kind_is_support_operator (get_filter_field f) od.operator)

/-- A position in the key where the operator-group alternation matches
right after an opening parenthesis: this, not a closing parenthesis, is
what a split_operator match requires. -/
def hasOpAt : List Char → Bool
  | [] => false
  | c :: rest => (c == '(' && (opMatchAt rest).isSome) || hasOpAt rest

/-- Decidable equality for filter outcomes. -/
instance : DecidableEq (Except Err Query) := fun a b =>
  match a, b with
  | Except.ok x, Except.ok y =>
    if h : x = y then isTrue (by rw [h])
    else isFalse (fun hc => h (Except.ok.inj hc))
  | Except.error e, Except.error f =>
    if h : e = f then isTrue (by rw [h])
    else isFalse (fun hc => h (Except.error.inj hc))
  | Except.ok _, Except.error _ => isFalse (fun hc => Except.noConfusion hc)
  | Except.error _, Except.ok _ => isFalse (fun hc => Except.noConfusion hc)

/-! ## Helper lemmas -/

/-- Membership among the mapped names is equivalent to a successful
findField scan, and the found column carries the requested name. -/
theorem findField_of_contains (l : List FieldPy) (n : String)
    (h : ((l.map FieldPy.name).contains n) = true) :
    ∃ f, findField l n = some f ∧ f.name = n := by
  induction l with
  | nil => simp [List.contains] at h
  | cons f t ih =>
    by_cases hn : f.name = n
    · exact ⟨f, by simp [findField, List.find?, hn], hn⟩
    · have hb : (f.name == n) = false := beq_false_of_ne hn
      have ht : ((t.map FieldPy.name).contains n) = true := by
        simp only [List.map_cons, List.contains_cons] at h
        rcases Bool.or_eq_true_iff.mp h with h1 | h1
        · exact absurd (eq_of_beq h1).symm hn
        · exact h1
      rcases ih ht with ⟨g, hg, hgn⟩
      exact ⟨g, by simpa [findField, List.find?, hb] using hg, hgn⟩

/-- The converse direction: a failed findField scan means the name is not
among the selected names. -/
theorem contains_of_findField (l : List FieldPy) (n : String) (f : FieldPy)
    (h : findField l n = some f) :
    ((l.map FieldPy.name).contains n) = true := by
  induction l with
  | nil => simp [findField, List.find?] at h
  | cons g t ih =>
    simp only [findField, List.find?] at h
    cases hb : (g.name == n) with
    | true =>
      simp only [List.map_cons, List.contains_cons]
      exact Bool.or_eq_true_iff.mpr (Or.inl ((beq_iff_eq).mpr (eq_of_beq hb).symm))
    | false =>
      rw [hb] at h
      simp only [List.map_cons, List.contains_cons]
      exact Bool.or_eq_true_iff.mpr (Or.inr (ih h))

/-- A successful greedy attempt at one start position exhibits an opening
parenthesis followed by a matching operator alternative. -/
theorem hasOpAt_of_tryAtStart (cs : List Char)
    (h : (tryAtStart cs).isSome = true) : hasOpAt cs = true := by
  induction cs with
  | nil => simp [tryAtStart] at h
  | cons c rest ih =>
    simp only [tryAtStart] at h
    by_cases hnl : (c == '\n') = true
    · simp [hnl] at h
    · rw [Bool.not_eq_true] at hnl
      rw [hnl] at h
      simp only [Bool.false_eq_true, if_false] at h
      cases ht : tryAtStart rest with
      | some r =>
        have := ih (by rw [ht]; rfl)
        simp [hasOpAt, this]
      | none =>
        rw [ht] at h
        by_cases hp : (c == '(') = true
        · rw [hp] at h
          simp only [if_true] at h
          cases hm : opMatchAt rest with
          | some op => simp [hasOpAt, hp, hm]
          | none => rw [hm] at h; simp at h
        · rw [Bool.not_eq_true] at hp
          rw [hp] at h
          simp at h

/-- Wherever an opening parenthesis is followed by a matching operator
alternative, re.search succeeds. -/
theorem reSearch_of_hasOpAt (cs : List Char)
    (h : hasOpAt cs = true) : (reSearch cs).isSome = true := by
  induction cs with
  | nil => simp [hasOpAt] at h
  | cons c rest ih =>
    simp only [hasOpAt] at h
    rcases Bool.or_eq_true_iff.mp h with h1 | h1
    · simp only [Bool.and_eq_true] at h1
      obtain ⟨hp, hm⟩ := h1
      have hc : c = '(' := eq_of_beq hp
      have hnl : (c == '\n') = false := by rw [hc]; rfl
      simp only [reSearch, tryAtStart, hnl, Bool.false_eq_true, if_false]
      cases ht : tryAtStart rest with
      | some r => rfl
      | none =>
        rw [hp]
        simp only [if_true]
        cases hmm : opMatchAt rest with
        | some op => rfl
        | none => rw [hmm] at hm; simp at hm
    · have hr := ih h1
      simp only [reSearch]
      cases ht : tryAtStart (c :: rest) with
      | some r => rfl
      | none => exact hr

/-- A successful re.search exhibits an opening parenthesis followed by a
matching operator alternative. -/
theorem hasOpAt_of_reSearch (cs : List Char)
    (h : (reSearch cs).isSome = true) : hasOpAt cs = true := by
  induction cs with
  | nil => simp [reSearch] at h
  | cons c rest ih =>
    simp only [reSearch] at h
    cases ht : tryAtStart (c :: rest) with
    | some r => exact hasOpAt_of_tryAtStart _ (by rw [ht]; rfl)
    | none =>
      rw [ht] at h
      have := ih h
      simp [hasOpAt, this]

/-- The match condition of split_operator, as an equation on Bool. -/
theorem reSearch_isSome_eq_hasOpAt (cs : List Char) :
    (reSearch cs).isSome = hasOpAt cs := by
  cases hh : hasOpAt cs with
  | true => exact reSearch_of_hasOpAt cs hh
  | false =>
    cases hs : (reSearch cs).isSome with
    | true => exact absurd (hasOpAt_of_reSearch cs hs) (by simp [hh])
    | false => rfl

/-- A successful filter step leaves the selected columns unchanged. -/
theorem filterStep_selected (q : Query) (k v : String) (q2 : Query)
    (h : DefaultFilter.filterStep q k v = Except.ok q2) :
    q2.selected_columns = q.selected_columns := by
  unfold DefaultFilter.filterStep at h
  cases hs : DefaultFilter.split_operator k with
  | none => simp only [hs] at h; cases h; rfl
  | some od =>
    simp only [hs] at h
    by_cases hc : ((get_valid_field_name_list q).contains od.key) = true
    · rw [if_pos hc] at h
      cases hf : get_field_py q od.key with
      | none => simp only [hf] at h; exact Except.noConfusion h
      | some field_py =>
        simp only [hf] at h
        by_cases hsup : (kind_is_support_operator (get_filter_field field_py) od.operator) = true
        · rw [if_pos hsup] at h
          by_cases hm : (SUPPORT_METHOD.contains od.operator) = true
          · rw [if_pos hm] at h; cases h; rfl
          · rw [if_neg hm] at h
            cases hfind : MAP.find? (fun e => e.1 == od.operator) with
            | none => simp only [hfind] at h; exact Except.noConfusion h
            | some e => simp only [hfind] at h; cases h; rfl
        · rw [if_neg hsup] at h; cases h; rfl
    · rw [if_neg hc] at h; cases h; rfl

/-- A pair meeting the skip conditions leaves the query untouched and
raises nothing. -/
theorem filterStep_skipped (q : Query) (k v : String)
    (h : pairSkipped q.selected_columns k = true) :
    DefaultFilter.filterStep q k v = Except.ok q := by
  unfold pairSkipped at h
  unfold DefaultFilter.filterStep
  cases hs : DefaultFilter.split_operator k with
  | none => rfl
  | some od =>
    simp only [hs] at h ⊢
    cases hf : findField q.selected_columns od.key with
    | none =>
      have hc : ((get_valid_field_name_list q).contains od.key) = false := by
        cases hcc : ((get_valid_field_name_list q).contains od.key) with
        | false => rfl
        | true =>
          rcases findField_of_contains q.selected_columns od.key hcc with ⟨f, hff, _⟩
          rw [hff] at hf; cases hf
      have hcn : ¬(((get_valid_field_name_list q).contains od.key) = true) := by
        rw [hc]; exact Bool.false_ne_true
      rw [if_neg hcn]
    | some f =>
      simp only [hf] at h
      have hc : ((get_valid_field_name_list q).contains od.key) = true :=
        contains_of_findField q.selected_columns od.key f hf
      have hgf : get_field_py q od.key = some f := hf
      have hsup : (kind_is_support_operator (get_filter_field f) od.operator) = false := by
        cases hso : (kind_is_support_operator (get_filter_field f) od.operator) with
        | false => rfl
        | true => rw [hso] at h; simp at h
      rw [if_pos hc, hgf]
      simp only
      have hsupn : ¬((kind_is_support_operator (get_filter_field f) od.operator) = true) := by
        rw [hsup]; exact Bool.false_ne_true
      rw [if_neg hsupn]

/-- Inserting a pair that meets the skip conditions anywhere into the
parameter list does not change the outcome of DefaultFilter.filter: the
skip conditions depend only on the selected columns, which every step
preserves. -/
theorem filter_insert_skipped (ps1 : List (String × String)) :
    ∀ (q : Query) (ps2 : List (String × String)) (k v : String),
    pairSkipped q.selected_columns k = true →
    DefaultFilter.filter q (ps1 ++ (k, v) :: ps2) = DefaultFilter.filter q (ps1 ++ ps2) := by
  induction ps1 with
  | nil =>
    intro q ps2 k v h
    simp only [List.nil_append, DefaultFilter.filter, filterStep_skipped q k v h]
  | cons p rest ih =>
    intro q ps2 k v h
    obtain ⟨k0, v0⟩ := p
    simp only [List.cons_append, DefaultFilter.filter]
    cases hstep : DefaultFilter.filterStep q k0 v0 with
    | error e => rfl
    | ok q2 =>
      have hsel : q2.selected_columns = q.selected_columns :=
        filterStep_selected q k0 v0 q2 hstep
      exact ih q2 ps2 k v (by rw [hsel]; exact h)

/-- The selected field names do not change under order_by. -/
theorem get_valid_field_name_list_order_by (q : Query) (sk : FieldPy × Bool) :
    get_valid_field_name_list (Query.order_by q sk) = get_valid_field_name_list q := rfl

/-- A term_valid token yields a sort key: the resolved column carries the
token's field name (marker stripped), descending exactly for a marked
token. -/
theorem orderingOf_of_valid (q : Query) (t : String)
    (h : term_valid (get_valid_field_name_list q) t = true) :
    ∃ f b, orderingOf q t = some (f, b) ∧ (f.name, b) = tokenSortKey t := by
  unfold term_valid at h
  unfold orderingOf tokenSortKey
  by_cases hd : startsWithDash t = true
  · rw [if_pos hd] at h ⊢
    rw [if_pos hd]
    rcases findField_of_contains q.selected_columns (strip_dash t)
      (by simpa [get_valid_field_name_list] using h) with ⟨f, hf, hn⟩
    exact ⟨f, true, by rw [show get_field_py q (strip_dash t) = some f from hf]; rfl,
      by rw [hn]⟩
  · rw [if_neg hd] at h ⊢
    rw [if_neg hd]
    rcases findField_of_contains q.selected_columns t
      (by simpa [get_valid_field_name_list] using h) with ⟨f, hf, hn⟩
    exact ⟨f, false, by rw [show get_field_py q t = some f from hf]; rfl, by rw [hn]⟩

/-- Running the order_by loop over a list of term_valid tokens succeeds and
prepends their sort keys in reverse of the processed order, leaving
selected columns and predicates untouched. -/
theorem applyOrderings_ok (l : List String) :
    ∀ q : Query, (∀ t ∈ l, term_valid (get_valid_field_name_list q) t = true) →
    ∃ q2, applyOrderings q l = Except.ok q2 ∧
      q2.sort_keys.map sortKeyName =
        l.reverse.map tokenSortKey ++ q.sort_keys.map sortKeyName ∧
      q2.selected_columns = q.selected_columns ∧
      q2.predicates = q.predicates := by
  induction l with
  | nil => intro q h; exact ⟨q, rfl, by simp, rfl, rfl⟩
  | cons t rest ih =>
    intro q h
    rcases orderingOf_of_valid q t (h t (List.mem_cons_self t rest)) with ⟨f, b, hof, hname⟩
    have hrest : ∀ u ∈ rest, term_valid (get_valid_field_name_list (Query.order_by q (f, b))) u = true := by
      intro u hu
      rw [get_valid_field_name_list_order_by]
      exact h u (List.mem_cons_of_mem t hu)
    rcases ih (Query.order_by q (f, b)) hrest with ⟨q2, happ, hkeys, hsel, hpred⟩
    refine ⟨q2, ?_, ?_, hsel, hpred⟩
    · simp only [applyOrderings, hof]; exact happ
    · rw [hkeys]
      simp only [Query.order_by, List.map_cons, List.reverse_cons, List.map_append,
        List.append_assoc, List.map_cons, List.map_nil]
      rw [show sortKeyName (f, b) = tokenSortKey t from hname]
      rfl

/-! ## Concrete queryables used as witnesses -/

/-- A queryable with one text column. -/
def q1 : Query :=
  ⟨[⟨"name", PeeweeFieldType.charField, "id"⟩], [], []⟩

/-- A queryable with a text column and an integer identity column. -/
def q3 : Query :=
  ⟨[⟨"name", PeeweeFieldType.charField, "id"⟩,
    ⟨"id", PeeweeFieldType.integerField, "id"⟩], [], []⟩

/-- The identity column of q3. -/
def q3id : FieldPy :=
  ⟨"id", PeeweeFieldType.integerField, "id"⟩

/-! ## Claims -/

/-- Claim C1.  The claim states that a key f(is_null) on a selected field
f parses to the method operator is_null, adds a null-check predicate, and
raises no error.  The code disagrees: the closing parenthesis of the
pattern is attached to the last alternative inside the operator capture
group, so the captured operator is the nine characters of "is_null)",
which is not in SUPPORT_METHOD; the else branch then evaluates
MAP["is_null)"] and raises KeyError. -/
theorem defaultFilter_is_null_key_raises_keyerror :
    DefaultFilter.split_operator "name(is_null)" = some ⟨"name", "is_null)"⟩ ∧
    DefaultFilter.filter q1 [("name(is_null)", "true")] = Except.error Err.keyError := by
  decide

/-- Claim C2, counterexample.  The claim requires a literal closing
parenthesis after the operator token for split_operator to match, but
"age(>=" matches although the key contains no closing parenthesis at
all: the parenthesis in the pattern binds only to the last alternative of
the operator group. -/
theorem split_operator_matches_without_closing_paren :
    DefaultFilter.split_operator "age(>=" = some ⟨"age", ">="⟩ ∧
    ("age(>=".data.contains ')') = false := by
  decide

/-- Claim C2, amended.  split_operator(key) matches if and only if some
position of the key holds an opening parenthesis immediately followed by
one of the alternation's alternatives: the eight comparison tokens bare
(no closing parenthesis required or consumed), or the text "is_null)"
whose captured operator includes the parenthesis.  The greedy prefix
before the matched parenthesis is captured as field_name.  The spec's
three examples behave as stated. -/
theorem split_operator_grammar :
    (∀ key : String, (DefaultFilter.split_operator key).isSome = hasOpAt key.data) ∧
    DefaultFilter.split_operator "age(>=)" = some ⟨"age", ">="⟩ ∧
    DefaultFilter.split_operator "age" = none ∧
    DefaultFilter.split_operator "age(BETWEEN)" = none ∧
    DefaultFilter.split_operator "a(b(==)" = some ⟨"a(b", "=="⟩ := by
  refine ⟨?_, by decide, by decide, by decide, by decide⟩
  intro key
  calc (DefaultFilter.split_operator key).isSome
      = (reSearch key.data).isSome := by
        cases hr : reSearch key.data <;> simp [DefaultFilter.split_operator, hr]
    _ = hasOpAt key.data := reSearch_isSome_eq_hasOpAt key.data

/-- Claim C3.  For a non-empty ordering parameter whose surviving tokens
t1..tn are nonempty, OrderingFilter.filter succeeds, and since it applies
order_by in reverse written order over the prepending sort-key operation,
the resulting sort keys (highest precedence first) are exactly t1..tn in
written order, each marked token descending with its marker stripped,
followed by the previously present keys; predicates and selected columns
are untouched. -/
theorem orderingFilter_written_order_precedence (q : Query) (s : String)
    (h0 : s ≠ "")
    (h : filter_valid_fields q ((pySplitComma s).map pyStrip) ≠ []) :
    ∃ q2, OrderingFilter.filter q (some s) = Except.ok q2 ∧
      q2.sort_keys.map sortKeyName =
        (filter_valid_fields q ((pySplitComma s).map pyStrip)).map tokenSortKey
          ++ q.sort_keys.map sortKeyName ∧
      q2.selected_columns = q.selected_columns ∧
      q2.predicates = q.predicates := by
  have hne : s.data.isEmpty = false := by
    cases hd : s.data with
    | nil => exact absurd (String.ext hd) h0
    | cons c t => rfl
  have hmem : ∀ t ∈ (filter_valid_fields q ((pySplitComma s).map pyStrip)).reverse,
      term_valid (get_valid_field_name_list q) t = true := by
    intro t ht
    rw [List.mem_reverse] at ht
    exact List.of_mem_filter ht
  rcases applyOrderings_ok (filter_valid_fields q ((pySplitComma s).map pyStrip)).reverse
    q hmem with ⟨q2, happ, hkeys, hsel, hpred⟩
  refine ⟨q2, ?_, ?_, hsel, hpred⟩
  · simp only [OrderingFilter.filter]
    have hnem : ¬(s.data.isEmpty = true) := by rw [hne]; exact Bool.false_ne_true
    rw [if_neg hnem]
    have hfe : ¬((filter_valid_fields q ((pySplitComma s).map pyStrip)).isEmpty = true) := by
      cases hl : filter_valid_fields q ((pySplitComma s).map pyStrip) with
      | nil => exact absurd hl h
      | cons a b => simp
    rw [if_neg hfe]
    exact happ
  · rw [hkeys, List.reverse_reverse]

/-- Claim C3, witness: ordering parameter "name,-id" on a queryable with
fields name and id yields sort keys name ascending primary, id descending
secondary. -/
theorem orderingFilter_written_order_precedence_witness :
    ∃ q2, OrderingFilter.filter q3 (some "name,-id") = Except.ok q2 ∧
      q2.sort_keys.map sortKeyName =
        (filter_valid_fields q3 ((pySplitComma "name,-id").map pyStrip)).map tokenSortKey
          ++ q3.sort_keys.map sortKeyName ∧
      q2.selected_columns = q3.selected_columns ∧
      q2.predicates = q3.predicates :=
  orderingFilter_written_order_precedence q3 "name,-id" (by decide) (by decide)

/-- Claim C4.  A present ordering parameter with no surviving token (an
empty or all-invalid token list) adds no sort key: the queryable comes
back unchanged, with no identity-field fallback and no error. -/
theorem orderingFilter_no_valid_tokens_no_order (q : Query) (s : String)
    (h : filter_valid_fields q ((pySplitComma s).map pyStrip) = []) :
    OrderingFilter.filter q (some s) = Except.ok q := by
  simp only [OrderingFilter.filter]
  by_cases he : s.data.isEmpty = true
  · rw [if_pos he]
    rfl
  · rw [if_neg he, h]
    rfl

/-- Claim C4, witness: ordering parameter "bogus_field" on a queryable
whose fields are name and id leaves the queryable unchanged. -/
theorem orderingFilter_no_valid_tokens_no_order_witness :
    OrderingFilter.filter q3 (some "bogus_field") = Except.ok q3 :=
  orderingFilter_no_valid_tokens_no_order q3 "bogus_field" (by decide)

/-- Claim C5.  A (key, value) pair whose key fails the grammar, or names no
selected column, or carries an operator the resolved adapter reports
unsupported, contributes nothing: the step for that pair returns the
queryable unchanged without error, and inserting the pair anywhere into
the parameter mapping leaves the whole filter outcome unchanged,
independently of the other pairs. -/
theorem defaultFilter_skips_invalid_pairs (q : Query) (k v : String)
    (ps1 ps2 : List (String × String))
    (h : pairSkipped q.selected_columns k = true) :
    DefaultFilter.filterStep q k v = Except.ok q ∧
    DefaultFilter.filter q (ps1 ++ (k, v) :: ps2) = DefaultFilter.filter q (ps1 ++ ps2) :=
  ⟨filterStep_skipped q k v h, filter_insert_skipped ps1 q ps2 k v h⟩

/-- Claim C5, witness: on a queryable with the single text field name, the
pair with key unknown_field(==) is a no-op both alone and inserted after a
pair that does add a predicate. -/
theorem defaultFilter_skips_invalid_pairs_witness :
    DefaultFilter.filterStep q1 "unknown_field(==)" "x" = Except.ok q1 ∧
    DefaultFilter.filter q1 ([("name(==)", "Alice")] ++ ("unknown_field(==)", "x") :: []) =
      DefaultFilter.filter q1 ([("name(==)", "Alice")] ++ []) :=
  defaultFilter_skips_invalid_pairs q1 "unknown_field(==)" "x"
    [("name(==)", "Alice")] [] (by decide)

/-- The operator-support table of the spec (section 4.1), per adapter
class. -/
def AdapterSupportTable (op : String) : Prop :=
  FilterCharField.is_support_operator op = true ∧
  FilterDefaultField.is_support_operator op = true ∧
  (FilterBooleanField.is_support_operator op = true ↔
    op ∉ ([">=", "<=", ">", "<", "LIKE", "ILIKE"] : List String)) ∧
  (FilterIntegerField.is_support_operator op = true ↔
    op ∉ (["LIKE", "ILIKE"] : List String)) ∧
  (FilterDateTimeField.is_support_operator op = true ↔
    op ∉ (["LIKE", "ILIKE"] : List String))

/-- Claim C6.  For every registered operator token: the text and default
adapters support it; the boolean adapter supports it exactly when it is
none of >=, <=, >, <, LIKE, ILIKE; the integer and date-time adapters
support it exactly when it is neither LIKE nor ILIKE. -/
theorem adapter_operator_support_table (op : String) (h : op ∈ allOpTokens) :
    AdapterSupportTable op := by
  have hm : op ∈ ["==", "!=", ">=", "<=", ">", "<", "LIKE", "ILIKE", "is_null"] := by
    simpa [allOpTokens, MAP, SUPPORT_METHOD] using h
  unfold AdapterSupportTable
  fin_cases hm <;> decide

/-- Claim C6, witness: the table at the token >=. -/
theorem adapter_operator_support_table_witness : AdapterSupportTable ">=" :=
  adapter_operator_support_table ">=" (by decide)

/-- Claim C7.  When the ordering parameter is absent and the identity
column is found among the selected columns, OrderingFilter.filter performs
exactly one order_by with that column ascending and returns; the found
column is the primary key of its model. -/
theorem orderingFilter_none_default_ordering (q : Query) (f : FieldPy)
    (h : get_default_ordering_field q = some f) :
    OrderingFilter.filter q none = Except.ok (Query.order_by q (f, false)) ∧
    f.model_pk_name = f.name ∧ f ∈ q.selected_columns := by
  have h2 : q.selected_columns.find? (fun g => g.model_pk_name == g.name) = some f := h
  refine ⟨?_, ?_, ?_⟩
  · simp only [OrderingFilter.filter, h]
  · have hp := List.find?_some h2
    simp only at hp
    exact eq_of_beq hp
  · exact List.mem_of_find?_eq_some h2

/-- Claim C7, witness: with selected columns name and id (primary key id),
the absent ordering parameter sorts by id ascending. -/
theorem orderingFilter_none_default_ordering_witness :
    OrderingFilter.filter q3 none = Except.ok (Query.order_by q3 (q3id, false)) ∧
    q3id.model_pk_name = q3id.name ∧ q3id ∈ q3.selected_columns :=
  orderingFilter_none_default_ordering q3 q3id (by decide)

/-- Claim C8.  FilterDateTimeField.parse_value tries the configured
formats in list order (only "%Y-%m-%dT%H:%M:%S" is configured), returns
the first successful datetime parse, and returns the raw string unchanged
when the format raises ValueError; being total, it raises nothing. -/
theorem dateTimeField_parse_value_formats (value : String) :
    (∀ d, strptime TimeFormat.isoBasic value = some d →
      FilterDateTimeField.parse_value value = Value.dt d) ∧
    (strptime TimeFormat.isoBasic value = none →
      FilterDateTimeField.parse_value value = Value.str value) := by
  constructor
  · intro d h
    simp only [FilterDateTimeField.parse_value, FilterDateTimeField.FORMATS,
      tryFormatList, FilterBaseField.parse_value, h]
  · intro h
    simp only [FilterDateTimeField.parse_value, FilterDateTimeField.FORMATS,
      tryFormatList, FilterBaseField.parse_value, h]

/-- Claim C8, witness: the configured format parses a leap-day timestamp. -/
theorem dateTimeField_parse_value_formats_witness :
    FilterDateTimeField.parse_value "2024-02-29T23:59:59" =
      Value.dt ⟨2024, 2, 29, 23, 59, 59⟩ :=
  (dateTimeField_parse_value_formats "2024-02-29T23:59:59").1
    ⟨2024, 2, 29, 23, 59, 59⟩ (by decide)

/-- Claim C9.  FilterBooleanField.parse_value is the case-sensitive exact
comparison with the literal "true": it returns true exactly on that
string, and in particular "True" and "1" coerce to false. -/
theorem booleanField_parse_value_exact_true :
    (∀ value : String, FilterBooleanField.parse_value value = (value == "true")) ∧
    (∀ value : String, FilterBooleanField.parse_value value = true ↔ value = "true") ∧
    FilterBooleanField.parse_value "true" = true ∧
    FilterBooleanField.parse_value "True" = false ∧
    FilterBooleanField.parse_value "1" = false := by
  refine ⟨fun value => rfl, fun value => ?_, by decide, by decide, by decide⟩
  simp [FilterBooleanField.parse_value, FilterBaseField.parse_value]

/-- One DefaultFilter step never takes the get_field_py exception branch:
it is guarded by the preceding membership test. -/
theorem filterStep_not_fieldNotFound (q : Query) (k v : String) :
    isFieldNotFoundErr (DefaultFilter.filterStep q k v) = false := by
  unfold DefaultFilter.filterStep
  cases hs : DefaultFilter.split_operator k with
  | none => rfl
  | some od =>
    simp only [hs]
    by_cases hc : ((get_valid_field_name_list q).contains od.key) = true
    · rw [if_pos hc]
      cases hf : get_field_py q od.key with
      | none =>
        rcases findField_of_contains q.selected_columns od.key hc with ⟨f, hff, _⟩
        rw [show get_field_py q od.key = findField q.selected_columns od.key from rfl,
          hff] at hf
        cases hf
      | some field_py =>
        simp only [hf]
        by_cases hsup : (kind_is_support_operator (get_filter_field field_py) od.operator) = true
        · rw [if_pos hsup]
          by_cases hm : (SUPPORT_METHOD.contains od.operator) = true
          · rw [if_pos hm]; rfl
          · rw [if_neg hm]
            cases hfind : MAP.find? (fun e => e.1 == od.operator) with
            | none => simp only [hfind]; rfl
            | some e => simp only [hfind]; rfl
        · rw [if_neg hsup]; rfl
    · rw [if_neg hc]; rfl

/-- Claim C10.  In both filters, get_field_py is called only on names that
already passed the membership check (directly in DefaultFilter.filter, via
filter_valid_fields in OrderingFilter.filter), so no run of either filter
ends in the "Field not found" exception. -/
theorem get_field_py_guarded :
    (∀ (q : Query) (params : List (String × String)),
      isFieldNotFoundErr (DefaultFilter.filter q params) = false) ∧
    (∀ (q : Query) (ordering_param : Option String),
      isFieldNotFoundErr (OrderingFilter.filter q ordering_param) = false) := by
  constructor
  · intro q params
    induction params generalizing q with
    | nil => rfl
    | cons p rest ih =>
      obtain ⟨k, v⟩ := p
      simp only [DefaultFilter.filter]
      cases hstep : DefaultFilter.filterStep q k v with
      | ok q2 => exact ih q2
      | error e =>
        have hns := filterStep_not_fieldNotFound q k v
        rw [hstep] at hns
        exact hns
  · intro q ordering_param
    cases ordering_param with
    | none =>
      simp only [OrderingFilter.filter]
      cases hdf : get_default_ordering_field q with
      | some f => rfl
      | none => rfl
    | some s =>
      simp only [OrderingFilter.filter]
      by_cases he : s.data.isEmpty = true
      · rw [if_pos he]; rfl
      · rw [if_neg he]
        by_cases hfe : ((filter_valid_fields q ((pySplitComma s).map pyStrip)).isEmpty) = true
        · rw [if_pos hfe]; rfl
        · rw [if_neg hfe]
          have hmem : ∀ t ∈ (filter_valid_fields q ((pySplitComma s).map pyStrip)).reverse,
              term_valid (get_valid_field_name_list q) t = true := by
            intro t ht
            rw [List.mem_reverse] at ht
            exact List.of_mem_filter ht
          rcases applyOrderings_ok
            (filter_valid_fields q ((pySplitComma s).map pyStrip)).reverse q hmem with
            ⟨q2, happ, _, _, _⟩
          rw [happ]
          rfl
